import Mathlib

/-!
Giraffe move codec (`move.h`).

A shallow embedding of the bit-packed `Move` record of `move.h` and the
properties its callers rely on.

Machine integers are natural numbers with explicit reduction modulo `2 ^ w`:

* `Move` is `uint64_t`: a natural number below `2 ^ 64` (`IsMove`);
* `MoveNoScore` is `uint32_t`: a natural number below `2 ^ 32`;
* `PieceType` and `Square` come from `types.h`; they are unsigned integer
  types of at most 32 bits, so the shift in a setter is carried out in 32-bit
  arithmetic and then widened to 64 bits (`shiftField`);
* `Score` comes from `types.h` too; it is a signed integer type whose width is
  the parameter `scoreBits` wherever a conversion to `Score` happens;
* the build with `DEBUG` defined is a second set of setters that return `none`
  when an `assert` fails;
* `MoveList` is a `FixedVector` of `containers.h`, which is modelled from the
  specification.
-/

namespace Giraffe

/-! ## Machine integers -/

/-- The value of a natural number after conversion to `uint32_t`. -/
def u32 (x : Nat) : Nat := x % 2 ^ 32

/-- The value of a natural number after conversion to `uint64_t`. -/
def u64 (x : Nat) : Nat := x % 2 ^ 64

/-- Modelled from the spec: `PieceType` and `Square` are declared in `types.h`, which is
not among the sources. The spec describes them as a "small unsigned enumeration, 4-bit
representable" and an "unsigned, 0-63" board index: unsigned integer types of at most
32 bits. The operand `x << s` of a setter is then computed in 32-bit arithmetic (after
integer promotion) before it is widened to the 64 bits of the move. -/
def shiftField (x s : Nat) : Nat := u32 (x <<< s)

/-- The value of an integer after conversion to a signed two's complement type of `w` bits. -/
def toSigned (w : Nat) (x : Int) : Int :=
  let r := x % 2 ^ w
  if r < 2 ^ (w - 1) then r else r - 2 ^ w

/-- The value of an integer after conversion to `int32_t`. -/
def i32 (x : Int) : Int := toSigned 32 x

/-- The value of an integer after conversion to `uint32_t`. -/
def i32ToU32 (x : Int) : Nat := (x % 2 ^ 32).toNat

/-- The values a `Move` variable can hold: `typedef uint64_t Move`. -/
def IsMove (mv : Nat) : Prop := mv < 2 ^ 64

instance (mv : Nat) : Decidable (IsMove mv) := by
  unfold IsMove; infer_instance

/-! ## `namespace MoveConstants` -/

namespace MoveConstants

def PIECE_TYPE_SHIFT : Nat := 0
def PIECE_TYPE_MASK : Nat := 0xF
def FROM_SHIFT : Nat := 4
def FROM_MASK : Nat := 0x3F
def TO_SHIFT : Nat := 10
def TO_MASK : Nat := 0x3F
def PROMO_SHIFT : Nat := 20
def PROMO_MASK : Nat := 0xF
def SCORE_SHIFT : Nat := 32
def SCORE_MASK : Nat := 0xFFFFFFFF

def CASTLE_WHITE_LONG : Nat := 1 <<< 19
def CASTLE_WHITE_SHORT : Nat := 1 <<< 18
def CASTLE_BLACK_LONG : Nat := 1 <<< 17
def CASTLE_BLACK_SHORT : Nat := 1 <<< 16
def CASTLE_MASK : Nat :=
  CASTLE_WHITE_LONG ||| CASTLE_WHITE_SHORT ||| CASTLE_BLACK_LONG ||| CASTLE_BLACK_SHORT

end MoveConstants

/-! ## Accessors and mutators -/

/-- Source function `GetPieceType`: `(mv >> PIECE_TYPE_SHIFT) & PIECE_TYPE_MASK`. -/
def GetPieceType (mv : Nat) : Nat :=
  (mv >>> MoveConstants.PIECE_TYPE_SHIFT) &&& MoveConstants.PIECE_TYPE_MASK

/-- Source function `SetPieceType`: `mv |= pt << PIECE_TYPE_SHIFT`. -/
def SetPieceType (mv : Nat) (pt : Nat) : Nat :=
  mv ||| shiftField pt MoveConstants.PIECE_TYPE_SHIFT

/-- Source function `GetFromSquare`: `(mv >> FROM_SHIFT) & FROM_MASK`. -/
def GetFromSquare (mv : Nat) : Nat :=
  (mv >>> MoveConstants.FROM_SHIFT) &&& MoveConstants.FROM_MASK

/-- Source function `SetFromSquare`: `mv |= sq << FROM_SHIFT`. -/
def SetFromSquare (mv : Nat) (sq : Nat) : Nat :=
  mv ||| shiftField sq MoveConstants.FROM_SHIFT

/-- Source function `GetToSquare`: `(mv >> TO_SHIFT) & TO_MASK`. -/
def GetToSquare (mv : Nat) : Nat :=
  (mv >>> MoveConstants.TO_SHIFT) &&& MoveConstants.TO_MASK

/-- Source function `SetToSquare`: `mv |= sq << TO_SHIFT`. -/
def SetToSquare (mv : Nat) (sq : Nat) : Nat :=
  mv ||| shiftField sq MoveConstants.TO_SHIFT

/-- Source function `GetPromoType`: `(mv >> PROMO_SHIFT) & PROMO_MASK`. -/
def GetPromoType (mv : Nat) : Nat :=
  (mv >>> MoveConstants.PROMO_SHIFT) &&& MoveConstants.PROMO_MASK

/-- Source function `IsPromotion`: `GetPromoType(mv) != 0`. -/
def IsPromotion (mv : Nat) : Bool :=
  GetPromoType mv != 0

/-- Source function `SetPromoType`: `mv |= pt << PROMO_SHIFT`. -/
def SetPromoType (mv : Nat) (pt : Nat) : Nat :=
  mv ||| shiftField pt MoveConstants.PROMO_SHIFT

/-- Source function `GetScore`: `(mv >> SCORE_SHIFT) & SCORE_MASK`. -/
def GetScore (mv : Nat) : Nat :=
  (mv >>> MoveConstants.SCORE_SHIFT) &&& MoveConstants.SCORE_MASK

/-- Source function `GetScoreBiased`: `int32_t tmp = GetScore(mv); tmp -= 0x8000;
return static_cast<Score>(tmp);` where `Score` is a signed type of `scoreBits` bits.
Signed arithmetic wraps. -/
def GetScoreBiased (scoreBits : Nat) (mv : Nat) : Int :=
  let tmp : Int := i32 (GetScore mv)
  let tmp : Int := i32 (tmp - 0x8000)
  toSigned scoreBits tmp

/-- Source function `SetScore`: `mv |= static_cast<uint64_t>(score) << SCORE_SHIFT`,
with `score` a `uint32_t` and the shift in 64-bit arithmetic. -/
def SetScore (mv : Nat) (score : Nat) : Nat :=
  mv ||| u64 (u32 score <<< MoveConstants.SCORE_SHIFT)

/-- Source function `SetScoreBiased`: `int32_t tmp = score; tmp += 0x8000;
SetScore(mv, static_cast<uint32_t>(tmp));`. Signed arithmetic wraps. -/
def SetScoreBiased (mv : Nat) (score : Int) : Nat :=
  let tmp : Int := i32 score
  let tmp : Int := i32 (tmp + 0x8000)
  SetScore mv (i32ToU32 tmp)

/-- Source function `IsCastling`: `mv & CASTLE_MASK`, converted to `bool`. -/
def IsCastling (mv : Nat) : Bool :=
  (mv &&& MoveConstants.CASTLE_MASK) != 0

/-- Source function `GetCastlingType`: `mv & CASTLE_MASK`. -/
def GetCastlingType (mv : Nat) : Nat :=
  u32 (mv &&& MoveConstants.CASTLE_MASK)

/-- Source function `SetCastlingType`: `mv |= type`, with `type` a `uint32_t`. -/
def SetCastlingType (mv : Nat) (type : Nat) : Nat :=
  mv ||| u32 type

/-- Source function `ClearScore`: `static_cast<MoveNoScore>(mv & 0xFFFFFFFF)`. -/
def ClearScore (mv : Nat) : Nat :=
  u32 (mv &&& 0xFFFFFFFF)

/-! ## The checked (`DEBUG`) build

With `DEBUG` defined every setter first runs its `assert`s; a failed `assert` aborts
the process, which is the result `none`. -/

/-- The value of `~x` for a `uint32_t` operand `x`. -/
def not32 (x : Nat) : Nat := 0xFFFFFFFF - u32 x

/-- Source function `SetPieceType` with `DEBUG` defined:
`assert((pt & ~PIECE_TYPE_MASK) == 0); assert(GetPieceType(mv) == 0);` and then the
assignment of the unchecked build. -/
def SetPieceTypeDebug (mv : Nat) (pt : Nat) : Option Nat :=
  if ¬ (u32 pt &&& not32 MoveConstants.PIECE_TYPE_MASK = 0) then none
  else if ¬ (GetPieceType mv = 0) then none
  else some (SetPieceType mv pt)

/-- Source function `SetFromSquare` with `DEBUG` defined:
`assert((sq & ~FROM_MASK) == 0); assert(GetFromSquare(mv) == 0);` and then the
assignment of the unchecked build. -/
def SetFromSquareDebug (mv : Nat) (sq : Nat) : Option Nat :=
  if ¬ (u32 sq &&& not32 MoveConstants.FROM_MASK = 0) then none
  else if ¬ (GetFromSquare mv = 0) then none
  else some (SetFromSquare mv sq)

/-- Source function `SetToSquare` with `DEBUG` defined:
`assert((sq & ~TO_MASK) == 0); assert(GetToSquare(mv) == 0);` and then the
assignment of the unchecked build. -/
def SetToSquareDebug (mv : Nat) (sq : Nat) : Option Nat :=
  if ¬ (u32 sq &&& not32 MoveConstants.TO_MASK = 0) then none
  else if ¬ (GetToSquare mv = 0) then none
  else some (SetToSquare mv sq)

/-- Source function `SetPromoType` with `DEBUG` defined:
`assert((pt & ~PROMO_MASK) == 0); assert(GetPromoType(mv) == 0);` and then the
assignment of the unchecked build. -/
def SetPromoTypeDebug (mv : Nat) (pt : Nat) : Option Nat :=
  if ¬ (u32 pt &&& not32 MoveConstants.PROMO_MASK = 0) then none
  else if ¬ (GetPromoType mv = 0) then none
  else some (SetPromoType mv pt)

/-- Source function `SetScore` with `DEBUG` defined:
`assert((score & ~SCORE_MASK) == 0); assert(GetScore(mv) == 0);` and then the
assignment of the unchecked build. -/
def SetScoreDebug (mv : Nat) (score : Nat) : Option Nat :=
  if ¬ (u32 score &&& not32 MoveConstants.SCORE_MASK = 0) then none
  else if ¬ (GetScore mv = 0) then none
  else some (SetScore mv score)

/-- Source function `SetCastlingType` with `DEBUG` defined:
`assert((type & ~CASTLE_MASK) == 0); assert((type & CASTLE_MASK) != 0);
assert(!IsCastling(mv));` and then the assignment of the unchecked build. -/
def SetCastlingTypeDebug (mv : Nat) (type : Nat) : Option Nat :=
  if ¬ (u32 type &&& not32 MoveConstants.CASTLE_MASK = 0) then none
  else if ¬ (u32 type &&& MoveConstants.CASTLE_MASK ≠ 0) then none
  else if ¬ (IsCastling mv = false) then none
  else some (SetCastlingType mv type)

/-! ## The move list -/

/-- Source constant `MAX_LEGAL_MOVES`. -/
def MAX_LEGAL_MOVES : Nat := 256

/-- The outcome of appending to a move list. -/
inductive AppendResult where
  | ok
  | capacityError
  deriving DecidableEq

/-- Modelled from the spec: `MoveList` is `FixedVector<Move, MAX_LEGAL_MOVES>`, and
`FixedVector` is declared in `containers.h`, which is not among the sources. The spec
describes `append(move)`: it "adds `move` at the end, preserving insertion order; fails
(capacity error) if the collection already holds 256 entries", and a failed append
"leaves the first 256 entries unchanged, in original insertion order". The list is the
sequence of its entries in insertion order; the result is the outcome and the list
after the call. -/
def MoveList.append (moves : List Nat) (mv : Nat) : AppendResult × List Nat :=
  if moves.length < MAX_LEGAL_MOVES then (AppendResult.ok, moves ++ [mv])
  else (AppendResult.capacityError, moves)

/-! ## Sequences of setter calls -/

/-- One call of a setter, with its argument. -/
inductive SetterCall where
  | pieceType (pt : Nat)
  | fromSquare (sq : Nat)
  | toSquare (sq : Nat)
  | promoType (pt : Nat)
  | castlingType (flag : Nat)
  | score (s : Nat)
  deriving DecidableEq

/-- The move after one setter call (unchecked build). -/
def SetterCall.apply : SetterCall → Nat → Nat
  | .pieceType pt, mv => SetPieceType mv pt
  | .fromSquare sq, mv => SetFromSquare mv sq
  | .toSquare sq, mv => SetToSquare mv sq
  | .promoType pt, mv => SetPromoType mv pt
  | .castlingType flag, mv => SetCastlingType mv flag
  | .score s, mv => SetScore mv s

/-- The bits a setter call ORs into the move. -/
def SetterCall.bits : SetterCall → Nat
  | .pieceType pt => shiftField pt MoveConstants.PIECE_TYPE_SHIFT
  | .fromSquare sq => shiftField sq MoveConstants.FROM_SHIFT
  | .toSquare sq => shiftField sq MoveConstants.TO_SHIFT
  | .promoType pt => shiftField pt MoveConstants.PROMO_SHIFT
  | .castlingType flag => u32 flag
  | .score s => u64 (u32 s <<< MoveConstants.SCORE_SHIFT)

/-- The move after a sequence of setter calls, first call first. -/
def applyCalls (mv : Nat) (calls : List SetterCall) : Nat :=
  calls.foldl (fun m c => c.apply m) mv

/-- The move built from the zero move by a sequence of setter calls. -/
def buildMove (calls : List SetterCall) : Nat := applyCalls 0 calls

/-! ## Vocabulary of the specification -/

/-- The four one-hot castling flags. -/
def IsCastlingFlag (flag : Nat) : Prop :=
  flag = MoveConstants.CASTLE_WHITE_LONG ∨ flag = MoveConstants.CASTLE_WHITE_SHORT ∨
    flag = MoveConstants.CASTLE_BLACK_LONG ∨ flag = MoveConstants.CASTLE_BLACK_SHORT

instance (flag : Nat) : Decidable (IsCastlingFlag flag) := by
  unfold IsCastlingFlag; infer_instance

/-- The positions of the four castling bits in the layout: bits 16 to 19. -/
def castleBitPositions : List Nat := [16, 17, 18, 19]

/-- The number of castling bits (bits 16 to 19) that are set in a move. -/
def castleBitCount (mv : Nat) : Nat :=
  (castleBitPositions.filter (fun i => mv.testBit i)).length

/-- Modelled from the spec: `Score` is declared in `types.h`, which is not part of the
sources. The spec describes the Score domain as a signed integer whose "magnitude [is]
bounded so that biasing by 0x8000 keeps it within the 32-bit field": the biased value
`s + 0x8000` is a value of the unsigned 32-bit score field. -/
def InScoreDomain (s : Int) : Prop := 0 ≤ s + 0x8000 ∧ s + 0x8000 < 2 ^ 32

instance (s : Int) : Decidable (InScoreDomain s) := by
  unfold InScoreDomain; infer_instance

/-- The value held in the `width` bits of `mv` that start at bit `lo`. -/
def bitField (mv lo width : Nat) : Nat := (mv / 2 ^ lo) % 2 ^ width

/-- The value `x` has a bit set where `mask` has none. -/
def HasBitOutside (mask x : Nat) : Prop :=
  ∃ i, x.testBit i = true ∧ mask.testBit i = false

/-- The precondition the spec puts on a setter call at the move `mv`: the value fits
the field and the field is currently zero; for castling, the flag is one of the four
one-hot patterns and no castling bit is set. -/
def SetterCall.Pre : SetterCall → Nat → Prop
  | .pieceType pt, mv => pt ≤ 15 ∧ GetPieceType mv = 0
  | .fromSquare sq, mv => sq ≤ 63 ∧ GetFromSquare mv = 0
  | .toSquare sq, mv => sq ≤ 63 ∧ GetToSquare mv = 0
  | .promoType pt, mv => pt ≤ 15 ∧ GetPromoType mv = 0
  | .castlingType flag, mv => IsCastlingFlag flag ∧ IsCastling mv = false
  | .score s, mv => s < 2 ^ 32 ∧ GetScore mv = 0

instance (c : SetterCall) (mv : Nat) : Decidable (c.Pre mv) := by
  cases c <;> unfold SetterCall.Pre <;> infer_instance

/-- Every call of the sequence satisfies the precondition of the spec at the move it is
applied to. -/
def ValidCalls : Nat → List SetterCall → Prop
  | _, [] => True
  | mv, c :: cs => c.Pre mv ∧ ValidCalls (c.apply mv) cs

/-- The precondition of a sequence of calls can be checked by evaluation. -/
def ValidCalls.dec : (mv : Nat) → (cs : List SetterCall) → Decidable (ValidCalls mv cs)
  | _, [] => isTrue trivial
  | mv, c :: cs =>
    have : Decidable (ValidCalls (c.apply mv) cs) := ValidCalls.dec (c.apply mv) cs
    (inferInstance : Decidable (c.Pre mv ∧ ValidCalls (c.apply mv) cs))

instance (mv : Nat) (cs : List SetterCall) : Decidable (ValidCalls mv cs) :=
  ValidCalls.dec mv cs

/-- The argument of a setter call fits its field: `pt ≤ 15`, `sq ≤ 63`, a castling flag
within `CASTLE_MASK`, a 32-bit score. -/
def SetterCall.ArgFits : SetterCall → Prop
  | .pieceType pt => pt ≤ 15
  | .fromSquare sq => sq ≤ 63
  | .toSquare sq => sq ≤ 63
  | .promoType pt => pt ≤ 15
  | .castlingType flag => flag &&& MoveConstants.CASTLE_MASK = flag
  | .score s => s < 2 ^ 32

instance (c : SetterCall) : Decidable c.ArgFits := by
  cases c <;> unfold SetterCall.ArgFits <;> infer_instance

/-- A move built from the zero move by setter calls whose arguments fit their fields. -/
def Built (mv : Nat) : Prop :=
  ∃ cs : List SetterCall, (∀ c ∈ cs, SetterCall.ArgFits c) ∧ buildMove cs = mv

/-! ## Bit-level helper lemmas -/

theorem and_mask4 (x : Nat) : x &&& 0xF = x % 16 :=
  Nat.and_pow_two_sub_one_eq_mod x 4

theorem and_mask6 (x : Nat) : x &&& 0x3F = x % 64 :=
  Nat.and_pow_two_sub_one_eq_mod x 6

theorem and_mask32 (x : Nat) : x &&& 0xFFFFFFFF = x % 4294967296 :=
  Nat.and_pow_two_sub_one_eq_mod x 32

theorem and_shifted_mask (x w s : Nat) :
    x &&& ((2 ^ w - 1) <<< s) = ((x >>> s) % 2 ^ w) <<< s := by
  apply Nat.eq_of_testBit_eq; intro i
  simp only [Nat.testBit_and, Nat.testBit_shiftLeft, Nat.testBit_mod_two_pow,
    Nat.testBit_shiftRight, Nat.testBit_two_pow_sub_one]
  by_cases h1 : i ≥ s
  · have h2 : s + (i - s) = i := by omega
    rw [h2]
    simp only [h1, decide_True, Bool.true_and]
    exact Bool.and_comm _ _
  · simp [h1]

theorem and_castle_mask (x : Nat) : x &&& 0xF0000 = (x / 65536 % 16) * 65536 := by
  have h := and_shifted_mask x 4 16
  rw [Nat.shiftLeft_eq, Nat.shiftLeft_eq, Nat.shiftRight_eq_div_pow] at h
  exact h

theorem getField_or (s M a b : Nat) :
    ((a ||| b) >>> s) &&& M = ((a >>> s) &&& M) ||| ((b >>> s) &&& M) := by
  apply Nat.eq_of_testBit_eq; intro i
  simp only [Nat.testBit_and, Nat.testBit_or, Nat.testBit_shiftRight]
  cases a.testBit (s + i) <;> cases M.testBit i <;> simp

theorem and_or_right (M a b : Nat) : (a ||| b) &&& M = (a &&& M) ||| (b &&& M) := by
  apply Nat.eq_of_testBit_eq; intro i
  simp only [Nat.testBit_and, Nat.testBit_or]
  cases a.testBit i <;> cases M.testBit i <;> simp

theorem CASTLE_MASK_eq : MoveConstants.CASTLE_MASK = 0xF0000 := by decide

/-! ### The getters as arithmetic -/

theorem GetPieceType_arith (mv : Nat) : GetPieceType mv = mv % 16 := by
  simp [GetPieceType, MoveConstants.PIECE_TYPE_SHIFT, MoveConstants.PIECE_TYPE_MASK, and_mask4]

theorem GetFromSquare_arith (mv : Nat) : GetFromSquare mv = mv / 16 % 64 := by
  simp [GetFromSquare, MoveConstants.FROM_SHIFT, MoveConstants.FROM_MASK, and_mask6,
    Nat.shiftRight_eq_div_pow]

theorem GetToSquare_arith (mv : Nat) : GetToSquare mv = mv / 1024 % 64 := by
  simp [GetToSquare, MoveConstants.TO_SHIFT, MoveConstants.TO_MASK, and_mask6,
    Nat.shiftRight_eq_div_pow]

theorem GetPromoType_arith (mv : Nat) : GetPromoType mv = mv / 1048576 % 16 := by
  simp [GetPromoType, MoveConstants.PROMO_SHIFT, MoveConstants.PROMO_MASK, and_mask4,
    Nat.shiftRight_eq_div_pow]

theorem GetScore_arith (mv : Nat) : GetScore mv = mv / 4294967296 % 4294967296 := by
  simp [GetScore, MoveConstants.SCORE_SHIFT, MoveConstants.SCORE_MASK, and_mask32,
    Nat.shiftRight_eq_div_pow]

theorem castleBits_arith (mv : Nat) :
    mv &&& MoveConstants.CASTLE_MASK = (mv / 65536 % 16) * 65536 := by
  rw [CASTLE_MASK_eq, and_castle_mask]

/-! ### The getters distribute over the `|=` of a setter -/

theorem GetPieceType_or (a b : Nat) :
    GetPieceType (a ||| b) = GetPieceType a ||| GetPieceType b :=
  getField_or _ _ a b

theorem GetFromSquare_or (a b : Nat) :
    GetFromSquare (a ||| b) = GetFromSquare a ||| GetFromSquare b :=
  getField_or _ _ a b

theorem GetToSquare_or (a b : Nat) :
    GetToSquare (a ||| b) = GetToSquare a ||| GetToSquare b :=
  getField_or _ _ a b

theorem GetPromoType_or (a b : Nat) :
    GetPromoType (a ||| b) = GetPromoType a ||| GetPromoType b :=
  getField_or _ _ a b

theorem GetScore_or (a b : Nat) :
    GetScore (a ||| b) = GetScore a ||| GetScore b :=
  getField_or _ _ a b

/-! ### What each setter ORs into the move -/

theorem pieceBits_arith (pt : Nat) :
    shiftField pt MoveConstants.PIECE_TYPE_SHIFT = pt % 4294967296 := by
  simp [shiftField, u32, MoveConstants.PIECE_TYPE_SHIFT]

theorem fromBits_arith (sq : Nat) :
    shiftField sq MoveConstants.FROM_SHIFT = sq * 16 % 4294967296 := by
  simp [shiftField, u32, MoveConstants.FROM_SHIFT, Nat.shiftLeft_eq]

theorem toBits_arith (sq : Nat) :
    shiftField sq MoveConstants.TO_SHIFT = sq * 1024 % 4294967296 := by
  simp [shiftField, u32, MoveConstants.TO_SHIFT, Nat.shiftLeft_eq]

theorem promoBits_arith (pt : Nat) :
    shiftField pt MoveConstants.PROMO_SHIFT = pt * 1048576 % 4294967296 := by
  simp [shiftField, u32, MoveConstants.PROMO_SHIFT, Nat.shiftLeft_eq]

theorem scoreBits_arith (score : Nat) :
    u64 (u32 score <<< MoveConstants.SCORE_SHIFT) = score % 4294967296 * 4294967296 := by
  simp only [u32, u64, MoveConstants.SCORE_SHIFT, Nat.shiftLeft_eq]
  norm_num
  omega

/-! ### Signed conversions -/

theorem i32_eq (x : Int) :
    i32 x = if x % 4294967296 < 2147483648 then x % 4294967296
      else x % 4294967296 - 4294967296 := by
  simp [i32, toSigned]

theorem i32_of_range (x : Int) (hlo : -2147483648 ≤ x) (hhi : x < 2147483648) : i32 x = x := by
  rw [i32_eq]; split <;> omega

theorem i32ToU32_cast (x : Int) : ((i32ToU32 x : Nat) : Int) = x % 4294967296 := by
  unfold i32ToU32
  rw [Int.toNat_of_nonneg (Int.emod_nonneg _ (by norm_num))]
  norm_num

theorem i32ToU32_lt (x : Int) : i32ToU32 x < 4294967296 := by
  have h := i32ToU32_cast x
  omega

theorem i32_emod (x : Int) : i32 x % 4294967296 = x % 4294967296 := by
  rw [i32_eq]; split <;> omega

theorem i32ToU32_congr (x y : Int) (h : x % 4294967296 = y % 4294967296) :
    i32ToU32 x = i32ToU32 y := by
  unfold i32ToU32
  norm_num
  rw [h]

theorem i32ToU32_i32 (x : Int) : i32ToU32 (i32 x) = i32ToU32 x :=
  i32ToU32_congr _ _ (i32_emod x)

theorem i32_i32ToU32 (x : Int) : i32 ((i32ToU32 x : Nat) : Int) = i32 x := by
  rw [i32ToU32_cast, i32_eq, i32_eq]
  split <;> split <;> omega

theorem toSigned_of_range (w : Nat) (x : Int) (hw : 0 < w)
    (hlo : -(2 : Int) ^ (w - 1) ≤ x) (hhi : x < (2 : Int) ^ (w - 1)) : toSigned w x = x := by
  have hpow : (2 : Int) ^ w = 2 * 2 ^ (w - 1) := by
    obtain ⟨k, rfl⟩ : ∃ k, w = k + 1 := ⟨w - 1, by omega⟩
    simp [pow_succ, mul_comm]
  have hpos : (0 : Int) < 2 ^ (w - 1) := by positivity
  unfold toSigned
  simp only
  rw [hpow]
  generalize (2 : Int) ^ (w - 1) = h at *
  by_cases hx : 0 ≤ x
  · have e : x % (2 * h) = x := Int.emod_eq_of_lt hx (by omega)
    rw [e, if_pos hhi]
  · have e : x % (2 * h) = x + 2 * h := by
      have e1 : (x + 2 * h) % (2 * h) = x % (2 * h) := by simp
      rw [← e1]
      exact Int.emod_eq_of_lt (by omega) (by omega)
    rw [e, if_neg (by omega)]
    omega

/-! ### The score field -/

theorem GetScore_SetScore (mv : Nat) (score : Nat) (h0 : GetScore mv = 0) :
    GetScore (SetScore mv score) = score % 4294967296 := by
  rw [SetScore, GetScore_or, h0, Nat.zero_or, GetScore_arith, scoreBits_arith]
  omega

theorem SetScoreBiased_eq (mv : Nat) (s : Int) :
    SetScoreBiased mv s = SetScore mv (i32ToU32 (s + 0x8000)) := by
  have h : i32ToU32 (i32 (i32 s + 0x8000)) = i32ToU32 (s + 0x8000) := by
    rw [i32ToU32_i32]
    apply i32ToU32_congr
    have h1 := i32_emod s
    omega
  simp only [SetScoreBiased, h]

theorem IsMove_iff (mv : Nat) : IsMove mv ↔ mv < 18446744073709551616 := by
  unfold IsMove; norm_num

theorem GetScore_of_IsMove (mv : Nat) (h : IsMove mv) : GetScore mv = mv / 4294967296 := by
  rw [IsMove_iff] at h
  rw [GetScore_arith]
  omega

theorem SetScore_arith (mv : Nat) (score : Nat) (hmv : IsMove mv) (h0 : GetScore mv = 0) :
    SetScore mv score = score % 4294967296 * 4294967296 + mv := by
  rw [GetScore_of_IsMove mv hmv] at h0
  have hlt : mv < 2 ^ 32 := by norm_num; omega
  rw [SetScore, scoreBits_arith, Nat.or_comm, Nat.mul_comm]
  exact (Nat.mul_add_lt_is_or hlt (score % 4294967296)).symm

/-! ## Round trips -/

/-- C1: field round trip. For a move whose piece-type field is zero and `pt ≤ 15`,
`GetPieceType` after `SetPieceType` returns `pt`; for `sq ≤ 63` the same holds of the
from-square and to-square fields when they are zero; and for `pt ≤ 15` of the
promotion field when it is zero. -/
theorem field_round_trip (mv : Nat) :
    (∀ pt, pt ≤ 15 → GetPieceType mv = 0 → GetPieceType (SetPieceType mv pt) = pt) ∧
    (∀ sq, sq ≤ 63 → GetFromSquare mv = 0 → GetFromSquare (SetFromSquare mv sq) = sq) ∧
    (∀ sq, sq ≤ 63 → GetToSquare mv = 0 → GetToSquare (SetToSquare mv sq) = sq) ∧
    (∀ pt, pt ≤ 15 → GetPromoType mv = 0 → GetPromoType (SetPromoType mv pt) = pt) := by
  refine ⟨?_, ?_, ?_, ?_⟩
  · intro pt hpt h0
    rw [SetPieceType, GetPieceType_or, h0, Nat.zero_or, GetPieceType_arith, pieceBits_arith]
    omega
  · intro sq hsq h0
    rw [SetFromSquare, GetFromSquare_or, h0, Nat.zero_or, GetFromSquare_arith, fromBits_arith]
    omega
  · intro sq hsq h0
    rw [SetToSquare, GetToSquare_or, h0, Nat.zero_or, GetToSquare_arith, toBits_arith]
    omega
  · intro pt hpt h0
    rw [SetPromoType, GetPromoType_or, h0, Nat.zero_or, GetPromoType_arith, promoBits_arith]
    omega

/-- Witness for C1 at the move `0x100000` (promotion field 1, the other three fields
zero) with piece type 5, squares 12 and 28; the promotion field is exercised on the
zero move. -/
theorem field_round_trip_witness :
    (GetPieceType 0x100000 = 0 ∧ GetPieceType (SetPieceType 0x100000 5) = 5) ∧
    (GetFromSquare 0x100000 = 0 ∧ GetFromSquare (SetFromSquare 0x100000 12) = 12) ∧
    (GetToSquare 0x100000 = 0 ∧ GetToSquare (SetToSquare 0x100000 28) = 28) ∧
    (GetPromoType 0 = 0 ∧ GetPromoType (SetPromoType 0 9) = 9) :=
  ⟨⟨by decide, (field_round_trip 0x100000).1 5 (by decide) (by decide)⟩,
   ⟨by decide, (field_round_trip 0x100000).2.1 12 (by decide) (by decide)⟩,
   ⟨by decide, (field_round_trip 0x100000).2.2.1 28 (by decide) (by decide)⟩,
   ⟨by decide, (field_round_trip 0).2.2.2 9 (by decide) (by decide)⟩⟩

/-- C2: biased score round trip. `Score` is a signed type of `scoreBits` bits. For a
move whose score field is zero and a score `s` (a value of type `Score`) such that
neither `s` nor `s + 0x8000` overflows a signed 32-bit integer,
`GetScoreBiased` after `SetScoreBiased` returns `s`. -/
theorem biased_score_round_trip (scoreBits : Nat) (mv : Nat) (s : Int)
    (hbits : 0 < scoreBits)
    (hscore : -(2 : Int) ^ (scoreBits - 1) ≤ s ∧ s < (2 : Int) ^ (scoreBits - 1))
    (h32 : -2 ^ 31 ≤ s ∧ s + 0x8000 < 2 ^ 31)
    (hfield : GetScore mv = 0) :
    GetScoreBiased scoreBits (SetScoreBiased mv s) = s := by
  obtain ⟨hlo, hhi⟩ := h32
  norm_num at hlo hhi
  have hget : GetScore (SetScoreBiased mv s) = i32ToU32 (s + 0x8000) := by
    rw [SetScoreBiased_eq, GetScore_SetScore mv _ hfield]
    exact Nat.mod_eq_of_lt (i32ToU32_lt _)
  unfold GetScoreBiased
  simp only
  rw [hget, i32_i32ToU32, i32_of_range (s + 0x8000) (by omega) (by omega)]
  rw [show s + 0x8000 - 0x8000 = s by omega, i32_of_range s (by omega) (by omega)]
  exact toSigned_of_range scoreBits s hbits hscore.1 hscore.2

/-- Witness for C2: the fresh move `0`, a 16-bit `Score` and the negative score `-50`. -/
theorem biased_score_round_trip_witness :
    GetScore 0 = 0 ∧ GetScoreBiased 16 (SetScoreBiased 0 (-50)) = -50 :=
  ⟨by decide,
   biased_score_round_trip 16 0 (-50) (by decide) (by decide) (by decide) (by decide)⟩

/-! ## Ordering -/

/-- C3: ordering law. For two 64-bit moves whose low 32 bits are equal, a smaller
`GetScore` implies a smaller move. -/
theorem ordering_law (m1 m2 : Nat) (h1 : IsMove m1) (h2 : IsMove m2)
    (hlow : m1 % 2 ^ 32 = m2 % 2 ^ 32) (hscore : GetScore m1 < GetScore m2) : m1 < m2 := by
  rw [GetScore_of_IsMove m1 h1, GetScore_of_IsMove m2 h2] at hscore
  norm_num at hlow
  omega

/-- Witness for C3: the move of the concrete scenario with raw scores 1 and 2. -/
theorem ordering_law_witness :
    IsMove 0x1000070C1 ∧ IsMove 0x2000070C1 ∧
    (0x1000070C1 : Nat) % 2 ^ 32 = 0x2000070C1 % 2 ^ 32 ∧
    GetScore 0x1000070C1 < GetScore 0x2000070C1 ∧ (0x1000070C1 : Nat) < 0x2000070C1 :=
  ⟨by decide, by decide, by decide, by decide,
   ordering_law 0x1000070C1 0x2000070C1 (by decide) (by decide) (by decide) (by decide)⟩

/-- C4: signed score order is preserved by the biased encoding. For a 64-bit move with
a zero score field and two scores `s1 < s2` of the Score domain, the move given `s1`
by `SetScoreBiased` is strictly below the move given `s2`. -/
theorem biased_order_preserved (mv : Nat) (s1 s2 : Int) (hmv : IsMove mv)
    (hfield : GetScore mv = 0) (hs1 : InScoreDomain s1) (hs2 : InScoreDomain s2)
    (hlt : s1 < s2) : SetScoreBiased mv s1 < SetScoreBiased mv s2 := by
  obtain ⟨h1lo, h1hi⟩ := hs1
  obtain ⟨h2lo, h2hi⟩ := hs2
  norm_num at h1hi h2hi
  rw [SetScoreBiased_eq, SetScoreBiased_eq, SetScore_arith mv _ hmv hfield,
    SetScore_arith mv _ hmv hfield]
  have e1 := i32ToU32_cast (s1 + 0x8000)
  have e2 := i32ToU32_cast (s2 + 0x8000)
  omega

/-- Below the Score domain the order is not preserved: the score `-0x8001` biases to
`-1`, stored as `0xFFFFFFFF`, above the encoding of the score `0`. -/
theorem biased_order_below_domain :
    ¬ InScoreDomain (-0x8001) ∧ SetScoreBiased 0 0 < SetScoreBiased 0 (-0x8001) := by
  decide

/-- Witness for C4: the scenario move with the scores `-100` and `-50`. -/
theorem biased_order_preserved_witness :
    IsMove 0x70C1 ∧ GetScore 0x70C1 = 0 ∧ InScoreDomain (-100) ∧ InScoreDomain (-50) ∧
    SetScoreBiased 0x70C1 (-100) < SetScoreBiased 0x70C1 (-50) :=
  ⟨by decide, by decide, by decide, by decide,
   biased_order_preserved 0x70C1 (-100) (-50) (by decide) (by decide) (by decide) (by decide)
    (by decide)⟩

/-- C5: whole-word comparison against score comparison. For any two 64-bit moves, a
smaller `GetScore` implies a smaller move, and a smaller move has a `GetScore` that is
not greater. -/
theorem whole_word_comparison (m1 m2 : Nat) (h1 : IsMove m1) (h2 : IsMove m2) :
    (GetScore m1 < GetScore m2 → m1 < m2) ∧ (m1 < m2 → GetScore m1 ≤ GetScore m2) := by
  rw [GetScore_of_IsMove m1 h1, GetScore_of_IsMove m2 h2]
  constructor <;> intro h <;> omega

/-- Witness for C5: two moves with different low words, scores 1 and 2. -/
theorem whole_word_comparison_witness :
    IsMove 0x1FFFFFFFF ∧ IsMove 0x200000000 ∧
    GetScore 0x1FFFFFFFF < GetScore 0x200000000 ∧ (0x1FFFFFFFF : Nat) < 0x200000000 ∧
    GetScore 0x1FFFFFFFF ≤ GetScore 0x200000000 :=
  ⟨by decide, by decide, by decide,
   (whole_word_comparison 0x1FFFFFFFF 0x200000000 (by decide) (by decide)).1 (by decide),
   (whole_word_comparison 0x1FFFFFFFF 0x200000000 (by decide) (by decide)).2 (by decide)⟩

/-! ## Projection -/

/-- C6: projection law. `ClearScore mv` is `mv` with its high 32 bits zeroed, and it
does not depend on the score: `ClearScore` of `SetScore mv s` is `ClearScore mv`, for
every move and every score (a zero score field is not needed). -/
theorem projection_law (mv : Nat) :
    ClearScore mv = mv % 2 ^ 32 ∧ ∀ s, ClearScore (SetScore mv s) = ClearScore mv := by
  have hc : ∀ m : Nat, ClearScore m = m % 4294967296 := by
    intro m
    rw [ClearScore, and_mask32, u32]
    norm_num
  refine ⟨by rw [hc]; norm_num, ?_⟩
  intro s
  rw [ClearScore, ClearScore, SetScore, and_or_right, and_mask32 (u64 _), scoreBits_arith]
  rw [show s % 4294967296 * 4294967296 % 4294967296 = 0 by omega, Nat.or_zero]

/-! ## Castling -/

theorem castleBit_masked (mv i : Nat) (hi : i ∈ castleBitPositions) :
    mv.testBit i = (mv &&& MoveConstants.CASTLE_MASK).testBit i := by
  have hm : MoveConstants.CASTLE_MASK.testBit i = true := by
    simp only [castleBitPositions, List.mem_cons, List.mem_singleton, List.not_mem_nil,
      or_false] at hi
    rcases hi with rfl | rfl | rfl | rfl <;> decide
  rw [Nat.testBit_and, hm, Bool.and_true]

theorem castleBitCount_masked (mv : Nat) :
    castleBitCount mv = castleBitCount (mv &&& MoveConstants.CASTLE_MASK) := by
  unfold castleBitCount
  congr 1
  apply List.filter_congr
  intro i hi
  exact castleBit_masked mv i hi

theorem castle_cases : ∀ k, k < 16 →
    (((k * 65536 != 0) = true ↔ 1 ≤ castleBitCount (k * 65536)) ∧
     (castleBitCount (k * 65536) = 1 →
        ∃ i ∈ castleBitPositions, (k * 65536).testBit i = true ∧
          u32 (k * 65536) = 1 <<< i)) := by
  decide

/-- C7, counterexample: the move `0x30000` has two castling bits set (bits 16 and 17),
yet `IsCastling` is true. -/
theorem castling_exclusivity_counterexample :
    IsMove 0x30000 ∧ ¬ (IsCastling 0x30000 = true ↔ castleBitCount 0x30000 = 1) := by
  decide

/-- C7, amended: for every move, `IsCastling` is true if and only if at least one of
the four castling bits (bits 16 to 19) is set; and when exactly one is set,
`IsCastling` is true and `GetCastlingType` equals that single bit. -/
theorem castling_any_bit (mv : Nat) :
    (IsCastling mv = true ↔ 1 ≤ castleBitCount mv) ∧
    (castleBitCount mv = 1 →
      IsCastling mv = true ∧
      ∃ i ∈ castleBitPositions, mv.testBit i = true ∧ GetCastlingType mv = 1 <<< i) := by
  have hk : mv / 65536 % 16 < 16 := Nat.mod_lt _ (by norm_num)
  have hc := castle_cases (mv / 65536 % 16) hk
  rw [← castleBits_arith mv, ← castleBitCount_masked mv] at hc
  obtain ⟨hiff, hone⟩ := hc
  refine ⟨hiff, ?_⟩
  intro h1
  obtain ⟨i, hi, hbit, hval⟩ := hone h1
  refine ⟨hiff.2 (by omega), i, hi, ?_, hval⟩
  rw [castleBit_masked mv i hi]
  exact hbit

/-- Witness for C7 (amended): the move `0x470C1`, whose only castling bit is bit 18. -/
theorem castling_any_bit_witness :
    castleBitCount 0x470C1 = 1 ∧ IsCastling 0x470C1 = true ∧
    ∃ i ∈ castleBitPositions, (0x470C1 : Nat).testBit i = true ∧
      GetCastlingType 0x470C1 = 1 <<< i :=
  ⟨by decide, (castling_any_bit 0x470C1).2 (by decide)⟩

/-- C8: castling round trip. For a move with no castling bit set and a flag that is
one of the four castling constants, after `SetCastlingType` the move satisfies
`IsCastling` and `GetCastlingType` returns the flag; and `IsCastling 0` is false. -/
theorem castling_round_trip :
    (∀ mv flag, IsCastling mv = false → IsCastlingFlag flag →
      IsCastling (SetCastlingType mv flag) = true ∧
        GetCastlingType (SetCastlingType mv flag) = flag) ∧
    IsCastling 0 = false := by
  refine ⟨?_, by decide⟩
  intro mv flag h0 hflag
  have hz : mv &&& MoveConstants.CASTLE_MASK = 0 := by
    simpa [IsCastling] using h0
  have hf : u32 flag &&& MoveConstants.CASTLE_MASK = flag ∧ flag ≠ 0 ∧ u32 flag = flag := by
    rcases hflag with rfl | rfl | rfl | rfl <;> decide
  have hm : (mv ||| u32 flag) &&& MoveConstants.CASTLE_MASK = flag := by
    rw [and_or_right, hz, Nat.zero_or, hf.1]
  constructor
  · simp [IsCastling, SetCastlingType, hm, hf.2.1]
  · rw [GetCastlingType, SetCastlingType, hm, ← hf.2.2]
    simp [u32]

/-- Witness for C8: the scenario move `0x70C1` and the flag `CASTLE_WHITE_SHORT`. -/
theorem castling_round_trip_witness :
    IsCastling 0x70C1 = false ∧ IsCastlingFlag MoveConstants.CASTLE_WHITE_SHORT ∧
    IsCastling (SetCastlingType 0x70C1 MoveConstants.CASTLE_WHITE_SHORT) = true ∧
    GetCastlingType (SetCastlingType 0x70C1 MoveConstants.CASTLE_WHITE_SHORT) =
      MoveConstants.CASTLE_WHITE_SHORT :=
  ⟨by decide, by decide,
   castling_round_trip.1 0x70C1 MoveConstants.CASTLE_WHITE_SHORT (by decide) (by decide)⟩

/-! ## Field isolation -/

/-- C9: field isolation. Each setter called with a value that fits its field
(`pt ≤ 15`, `sq ≤ 63`, one of the four castling flags, any score) leaves the results
of the getters of all the other fields unchanged, for every move: `GetPieceType`,
`GetFromSquare`, `GetToSquare`, `GetPromoType`, the castling bits
`mv &&& CASTLE_MASK` and `GetScore`. -/
theorem field_isolation (mv : Nat) :
    (∀ pt, pt ≤ 15 →
      GetFromSquare (SetPieceType mv pt) = GetFromSquare mv ∧
      GetToSquare (SetPieceType mv pt) = GetToSquare mv ∧
      GetPromoType (SetPieceType mv pt) = GetPromoType mv ∧
      SetPieceType mv pt &&& MoveConstants.CASTLE_MASK = mv &&& MoveConstants.CASTLE_MASK ∧
      GetScore (SetPieceType mv pt) = GetScore mv) ∧
    (∀ sq, sq ≤ 63 →
      GetPieceType (SetFromSquare mv sq) = GetPieceType mv ∧
      GetToSquare (SetFromSquare mv sq) = GetToSquare mv ∧
      GetPromoType (SetFromSquare mv sq) = GetPromoType mv ∧
      SetFromSquare mv sq &&& MoveConstants.CASTLE_MASK = mv &&& MoveConstants.CASTLE_MASK ∧
      GetScore (SetFromSquare mv sq) = GetScore mv) ∧
    (∀ sq, sq ≤ 63 →
      GetPieceType (SetToSquare mv sq) = GetPieceType mv ∧
      GetFromSquare (SetToSquare mv sq) = GetFromSquare mv ∧
      GetPromoType (SetToSquare mv sq) = GetPromoType mv ∧
      SetToSquare mv sq &&& MoveConstants.CASTLE_MASK = mv &&& MoveConstants.CASTLE_MASK ∧
      GetScore (SetToSquare mv sq) = GetScore mv) ∧
    (∀ pt, pt ≤ 15 →
      GetPieceType (SetPromoType mv pt) = GetPieceType mv ∧
      GetFromSquare (SetPromoType mv pt) = GetFromSquare mv ∧
      GetToSquare (SetPromoType mv pt) = GetToSquare mv ∧
      SetPromoType mv pt &&& MoveConstants.CASTLE_MASK = mv &&& MoveConstants.CASTLE_MASK ∧
      GetScore (SetPromoType mv pt) = GetScore mv) ∧
    (∀ flag, IsCastlingFlag flag →
      GetPieceType (SetCastlingType mv flag) = GetPieceType mv ∧
      GetFromSquare (SetCastlingType mv flag) = GetFromSquare mv ∧
      GetToSquare (SetCastlingType mv flag) = GetToSquare mv ∧
      GetPromoType (SetCastlingType mv flag) = GetPromoType mv ∧
      GetScore (SetCastlingType mv flag) = GetScore mv) ∧
    (∀ s,
      GetPieceType (SetScore mv s) = GetPieceType mv ∧
      GetFromSquare (SetScore mv s) = GetFromSquare mv ∧
      GetToSquare (SetScore mv s) = GetToSquare mv ∧
      GetPromoType (SetScore mv s) = GetPromoType mv ∧
      SetScore mv s &&& MoveConstants.CASTLE_MASK = mv &&& MoveConstants.CASTLE_MASK) := by
  refine ⟨?_, ?_, ?_, ?_, ?_, ?_⟩
  · intro pt hpt
    refine ⟨?_, ?_, ?_, ?_, ?_⟩
    · have h : GetFromSquare (shiftField pt MoveConstants.PIECE_TYPE_SHIFT) = 0 := by
        rw [GetFromSquare_arith, pieceBits_arith]; omega
      rw [SetPieceType, GetFromSquare_or, h, Nat.or_zero]
    · have h : GetToSquare (shiftField pt MoveConstants.PIECE_TYPE_SHIFT) = 0 := by
        rw [GetToSquare_arith, pieceBits_arith]; omega
      rw [SetPieceType, GetToSquare_or, h, Nat.or_zero]
    · have h : GetPromoType (shiftField pt MoveConstants.PIECE_TYPE_SHIFT) = 0 := by
        rw [GetPromoType_arith, pieceBits_arith]; omega
      rw [SetPieceType, GetPromoType_or, h, Nat.or_zero]
    · have h : shiftField pt MoveConstants.PIECE_TYPE_SHIFT &&&
          MoveConstants.CASTLE_MASK = 0 := by
        rw [castleBits_arith, pieceBits_arith]; omega
      rw [SetPieceType, and_or_right, h, Nat.or_zero]
    · have h : GetScore (shiftField pt MoveConstants.PIECE_TYPE_SHIFT) = 0 := by
        rw [GetScore_arith, pieceBits_arith]; omega
      rw [SetPieceType, GetScore_or, h, Nat.or_zero]
  · intro sq hsq
    refine ⟨?_, ?_, ?_, ?_, ?_⟩
    · have h : GetPieceType (shiftField sq MoveConstants.FROM_SHIFT) = 0 := by
        rw [GetPieceType_arith, fromBits_arith]; omega
      rw [SetFromSquare, GetPieceType_or, h, Nat.or_zero]
    · have h : GetToSquare (shiftField sq MoveConstants.FROM_SHIFT) = 0 := by
        rw [GetToSquare_arith, fromBits_arith]; omega
      rw [SetFromSquare, GetToSquare_or, h, Nat.or_zero]
    · have h : GetPromoType (shiftField sq MoveConstants.FROM_SHIFT) = 0 := by
        rw [GetPromoType_arith, fromBits_arith]; omega
      rw [SetFromSquare, GetPromoType_or, h, Nat.or_zero]
    · have h : shiftField sq MoveConstants.FROM_SHIFT &&& MoveConstants.CASTLE_MASK = 0 := by
        rw [castleBits_arith, fromBits_arith]; omega
      rw [SetFromSquare, and_or_right, h, Nat.or_zero]
    · have h : GetScore (shiftField sq MoveConstants.FROM_SHIFT) = 0 := by
        rw [GetScore_arith, fromBits_arith]; omega
      rw [SetFromSquare, GetScore_or, h, Nat.or_zero]
  · intro sq hsq
    refine ⟨?_, ?_, ?_, ?_, ?_⟩
    · have h : GetPieceType (shiftField sq MoveConstants.TO_SHIFT) = 0 := by
        rw [GetPieceType_arith, toBits_arith]; omega
      rw [SetToSquare, GetPieceType_or, h, Nat.or_zero]
    · have h : GetFromSquare (shiftField sq MoveConstants.TO_SHIFT) = 0 := by
        rw [GetFromSquare_arith, toBits_arith]; omega
      rw [SetToSquare, GetFromSquare_or, h, Nat.or_zero]
    · have h : GetPromoType (shiftField sq MoveConstants.TO_SHIFT) = 0 := by
        rw [GetPromoType_arith, toBits_arith]; omega
      rw [SetToSquare, GetPromoType_or, h, Nat.or_zero]
    · have h : shiftField sq MoveConstants.TO_SHIFT &&& MoveConstants.CASTLE_MASK = 0 := by
        rw [castleBits_arith, toBits_arith]; omega
      rw [SetToSquare, and_or_right, h, Nat.or_zero]
    · have h : GetScore (shiftField sq MoveConstants.TO_SHIFT) = 0 := by
        rw [GetScore_arith, toBits_arith]; omega
      rw [SetToSquare, GetScore_or, h, Nat.or_zero]
  · intro pt hpt
    refine ⟨?_, ?_, ?_, ?_, ?_⟩
    · have h : GetPieceType (shiftField pt MoveConstants.PROMO_SHIFT) = 0 := by
        rw [GetPieceType_arith, promoBits_arith]; omega
      rw [SetPromoType, GetPieceType_or, h, Nat.or_zero]
    · have h : GetFromSquare (shiftField pt MoveConstants.PROMO_SHIFT) = 0 := by
        rw [GetFromSquare_arith, promoBits_arith]; omega
      rw [SetPromoType, GetFromSquare_or, h, Nat.or_zero]
    · have h : GetToSquare (shiftField pt MoveConstants.PROMO_SHIFT) = 0 := by
        rw [GetToSquare_arith, promoBits_arith]; omega
      rw [SetPromoType, GetToSquare_or, h, Nat.or_zero]
    · have h : shiftField pt MoveConstants.PROMO_SHIFT &&& MoveConstants.CASTLE_MASK = 0 := by
        rw [castleBits_arith, promoBits_arith]; omega
      rw [SetPromoType, and_or_right, h, Nat.or_zero]
    · have h : GetScore (shiftField pt MoveConstants.PROMO_SHIFT) = 0 := by
        rw [GetScore_arith, promoBits_arith]; omega
      rw [SetPromoType, GetScore_or, h, Nat.or_zero]
  · intro flag hflag
    have hall : GetPieceType (u32 flag) = 0 ∧ GetFromSquare (u32 flag) = 0 ∧
        GetToSquare (u32 flag) = 0 ∧ GetPromoType (u32 flag) = 0 ∧
        GetScore (u32 flag) = 0 := by
      rcases hflag with rfl | rfl | rfl | rfl <;> decide
    obtain ⟨h1, h2, h3, h4, h5⟩ := hall
    refine ⟨?_, ?_, ?_, ?_, ?_⟩
    · rw [SetCastlingType, GetPieceType_or, h1, Nat.or_zero]
    · rw [SetCastlingType, GetFromSquare_or, h2, Nat.or_zero]
    · rw [SetCastlingType, GetToSquare_or, h3, Nat.or_zero]
    · rw [SetCastlingType, GetPromoType_or, h4, Nat.or_zero]
    · rw [SetCastlingType, GetScore_or, h5, Nat.or_zero]
  · intro s
    refine ⟨?_, ?_, ?_, ?_, ?_⟩
    · have h : GetPieceType (u64 (u32 s <<< MoveConstants.SCORE_SHIFT)) = 0 := by
        rw [GetPieceType_arith, scoreBits_arith]; omega
      rw [SetScore, GetPieceType_or, h, Nat.or_zero]
    · have h : GetFromSquare (u64 (u32 s <<< MoveConstants.SCORE_SHIFT)) = 0 := by
        rw [GetFromSquare_arith, scoreBits_arith]; omega
      rw [SetScore, GetFromSquare_or, h, Nat.or_zero]
    · have h : GetToSquare (u64 (u32 s <<< MoveConstants.SCORE_SHIFT)) = 0 := by
        rw [GetToSquare_arith, scoreBits_arith]; omega
      rw [SetScore, GetToSquare_or, h, Nat.or_zero]
    · have h : GetPromoType (u64 (u32 s <<< MoveConstants.SCORE_SHIFT)) = 0 := by
        rw [GetPromoType_arith, scoreBits_arith]; omega
      rw [SetScore, GetPromoType_or, h, Nat.or_zero]
    · have h : u64 (u32 s <<< MoveConstants.SCORE_SHIFT) &&& MoveConstants.CASTLE_MASK = 0 := by
        rw [castleBits_arith, scoreBits_arith]; omega
      rw [SetScore, and_or_right, h, Nat.or_zero]

/-- Witness for C9: each guarded setter at the scenario move `0x70C1`, or at a move
whose written field is still zero. -/
theorem field_isolation_witness :
    (GetFromSquare (SetPieceType 0x70C0 1) = GetFromSquare 0x70C0 ∧
      GetToSquare (SetPieceType 0x70C0 1) = GetToSquare 0x70C0 ∧
      GetPromoType (SetPieceType 0x70C0 1) = GetPromoType 0x70C0 ∧
      SetPieceType 0x70C0 1 &&& MoveConstants.CASTLE_MASK =
        0x70C0 &&& MoveConstants.CASTLE_MASK ∧
      GetScore (SetPieceType 0x70C0 1) = GetScore 0x70C0) ∧
    (GetPieceType (SetFromSquare 0x7001 12) = GetPieceType 0x7001 ∧
      GetToSquare (SetFromSquare 0x7001 12) = GetToSquare 0x7001 ∧
      GetPromoType (SetFromSquare 0x7001 12) = GetPromoType 0x7001 ∧
      SetFromSquare 0x7001 12 &&& MoveConstants.CASTLE_MASK =
        0x7001 &&& MoveConstants.CASTLE_MASK ∧
      GetScore (SetFromSquare 0x7001 12) = GetScore 0x7001) ∧
    (GetPieceType (SetCastlingType 0x70C1 MoveConstants.CASTLE_BLACK_SHORT) =
        GetPieceType 0x70C1 ∧
      GetFromSquare (SetCastlingType 0x70C1 MoveConstants.CASTLE_BLACK_SHORT) =
        GetFromSquare 0x70C1 ∧
      GetToSquare (SetCastlingType 0x70C1 MoveConstants.CASTLE_BLACK_SHORT) =
        GetToSquare 0x70C1 ∧
      GetPromoType (SetCastlingType 0x70C1 MoveConstants.CASTLE_BLACK_SHORT) =
        GetPromoType 0x70C1 ∧
      GetScore (SetCastlingType 0x70C1 MoveConstants.CASTLE_BLACK_SHORT) =
        GetScore 0x70C1) :=
  ⟨(field_isolation 0x70C0).1 1 (by decide),
   (field_isolation 0x7001).2.1 12 (by decide),
   (field_isolation 0x70C1).2.2.2.2.1 MoveConstants.CASTLE_BLACK_SHORT (by decide)⟩

/-! ## The concrete scenario -/

/-- C10: concrete scenario. From the zero move, `SetPieceType 1`, `SetFromSquare 12`
and `SetToSquare 28` give a move with from square 12, to square 28, piece type 1, no
promotion and no castling; after `SetScoreBiased (-50)` the biased score read back is
`-50` (for a `Score` type of at least 8 bits), and the raw value is greater than that
of the same move given `SetScoreBiased (-100)`. -/
theorem concrete_scenario :
    GetFromSquare (SetToSquare (SetFromSquare (SetPieceType 0 1) 12) 28) = 12 ∧
    GetToSquare (SetToSquare (SetFromSquare (SetPieceType 0 1) 12) 28) = 28 ∧
    GetPieceType (SetToSquare (SetFromSquare (SetPieceType 0 1) 12) 28) = 1 ∧
    IsPromotion (SetToSquare (SetFromSquare (SetPieceType 0 1) 12) 28) = false ∧
    IsCastling (SetToSquare (SetFromSquare (SetPieceType 0 1) 12) 28) = false ∧
    (∀ scoreBits, 8 ≤ scoreBits →
      GetScoreBiased scoreBits
        (SetScoreBiased (SetToSquare (SetFromSquare (SetPieceType 0 1) 12) 28) (-50)) = -50) ∧
    SetScoreBiased (SetToSquare (SetFromSquare (SetPieceType 0 1) 12) 28) (-100) <
      SetScoreBiased (SetToSquare (SetFromSquare (SetPieceType 0 1) 12) 28) (-50) := by
  refine ⟨by decide, by decide, by decide, by decide, by decide, ?_, by decide⟩
  intro scoreBits hbits
  have hinner : i32 (i32 ((GetScore (SetScoreBiased
      (SetToSquare (SetFromSquare (SetPieceType 0 1) 12) 28) (-50)) : Nat) : Int) - 0x8000)
      = -50 := by decide
  have hpow : (2 : Int) ^ 7 ≤ 2 ^ (scoreBits - 1) :=
    pow_le_pow_right₀ (by norm_num) (by omega)
  norm_num at hpow
  unfold GetScoreBiased
  simp only
  rw [hinner]
  exact toSigned_of_range scoreBits (-50) (by omega) (by omega) (by omega)

/-- Witness for C10: a 16-bit `Score`. -/
theorem concrete_scenario_witness :
    GetScoreBiased 16
      (SetScoreBiased (SetToSquare (SetFromSquare (SetPieceType 0 1) 12) 28) (-50)) = -50 :=
  concrete_scenario.2.2.2.2.2.1 16 (by decide)

/-! ## Promotion sentinel -/

/-- C11: sentinel law. For every move, `IsPromotion` is false if and only if
`GetPromoType` is zero; a move whose promotion field is zero is not a promotion, and
`SetPromoType` with `1 ≤ pt ≤ 15` on such a move makes `IsPromotion` true. -/
theorem sentinel_law (mv : Nat) :
    (IsPromotion mv = false ↔ GetPromoType mv = 0) ∧
    (GetPromoType mv = 0 → IsPromotion mv = false) ∧
    (∀ pt, 1 ≤ pt → pt ≤ 15 → GetPromoType mv = 0 →
      IsPromotion (SetPromoType mv pt) = true) := by
  have hiff : ∀ m : Nat, IsPromotion m = false ↔ GetPromoType m = 0 := by
    intro m
    simp [IsPromotion]
  refine ⟨hiff mv, (hiff mv).2, ?_⟩
  intro pt h1 h15 h0
  have hget : GetPromoType (SetPromoType mv pt) = pt := by
    rw [SetPromoType, GetPromoType_or, h0, Nat.zero_or, GetPromoType_arith, promoBits_arith]
    omega
  have hne : GetPromoType (SetPromoType mv pt) ≠ 0 := by omega
  cases hp : IsPromotion (SetPromoType mv pt)
  · exact absurd ((hiff _).1 hp) hne
  · rfl

/-- Witness for C11: the scenario move `0x70C1` (promotion field zero) and the
promotion piece type 4. -/
theorem sentinel_law_witness :
    GetPromoType 0x70C1 = 0 ∧ IsPromotion 0x70C1 = false ∧
    IsPromotion (SetPromoType 0x70C1 4) = true :=
  ⟨by decide, (sentinel_law 0x70C1).2.1 (by decide),
   (sentinel_law 0x70C1).2.2 4 (by decide) (by decide) (by decide)⟩

/-! ## Raw score -/

theorem SetScore_low (mv s : Nat) : SetScore mv s % 4294967296 = mv % 4294967296 := by
  rw [← and_mask32, ← and_mask32 mv, SetScore, and_or_right, and_mask32 (u64 _),
    scoreBits_arith]
  rw [show s % 4294967296 * 4294967296 % 4294967296 = 0 by omega, Nat.or_zero]

/-- C12: raw score round trip. For a move whose score field is zero and every unsigned
32-bit value `s`, `GetScore` of `SetScore mv s` is `s`, and the low 32 bits of the move
are unchanged. -/
theorem raw_score_round_trip (mv s : Nat) (hs : s < 2 ^ 32) (h0 : GetScore mv = 0) :
    GetScore (SetScore mv s) = s ∧ SetScore mv s % 2 ^ 32 = mv % 2 ^ 32 := by
  norm_num at hs
  refine ⟨?_, by norm_num; exact SetScore_low mv s⟩
  rw [GetScore_SetScore mv s h0]
  omega

/-- Witness for C12: the scenario move `0x70C1` and the largest score `0xFFFFFFFF`. -/
theorem raw_score_round_trip_witness :
    GetScore 0x70C1 = 0 ∧ GetScore (SetScore 0x70C1 0xFFFFFFFF) = 0xFFFFFFFF ∧
    SetScore 0x70C1 0xFFFFFFFF % 2 ^ 32 = 0x70C1 % 2 ^ 32 :=
  ⟨by decide, raw_score_round_trip 0x70C1 0xFFFFFFFF (by decide) (by decide)⟩

/-! ## Layout of the getters -/

/-- C16: the getters implement the layout and stay in range. For every 64-bit move,
`GetPieceType` is `mv % 16`, `GetFromSquare` is `mv / 2 ^ 4 % 64`, `GetToSquare` is
`mv / 2 ^ 10 % 64`, `GetPromoType` is `mv / 2 ^ 20 % 16` and `GetScore` is
`mv / 2 ^ 32`; the piece and promotion types are at most 15 and the squares at most
63. -/
theorem getters_layout (mv : Nat) (hmv : IsMove mv) :
    GetPieceType mv = mv % 16 ∧ GetFromSquare mv = mv / 2 ^ 4 % 64 ∧
    GetToSquare mv = mv / 2 ^ 10 % 64 ∧ GetPromoType mv = mv / 2 ^ 20 % 16 ∧
    GetScore mv = mv / 2 ^ 32 ∧
    GetPieceType mv ≤ 15 ∧ GetPromoType mv ≤ 15 ∧
    GetFromSquare mv ≤ 63 ∧ GetToSquare mv ≤ 63 := by
  rw [GetScore_of_IsMove mv hmv, GetPieceType_arith, GetFromSquare_arith, GetToSquare_arith,
    GetPromoType_arith]
  norm_num
  omega

/-- Witness for C16: the move with every bit set. -/
theorem getters_layout_witness :
    IsMove 0xFFFFFFFFFFFFFFFF ∧ GetPieceType 0xFFFFFFFFFFFFFFFF ≤ 15 ∧
    GetScore 0xFFFFFFFFFFFFFFFF = 0xFFFFFFFFFFFFFFFF / 2 ^ 32 :=
  ⟨by decide, (getters_layout 0xFFFFFFFFFFFFFFFF (by decide)).2.2.2.2.2.1,
   (getters_layout 0xFFFFFFFFFFFFFFFF (by decide)).2.2.2.2.1⟩

/-! ## The checked build -/

theorem u32_of_lt (x : Nat) (h : x < 2 ^ 32) : u32 x = x :=
  Nat.mod_eq_of_lt h

theorem testBit_not32 (mask i : Nat) (hm : mask < 2 ^ 32) :
    (not32 mask).testBit i = (decide (i < 32) && !mask.testBit i) := by
  have h : not32 mask = 2 ^ 32 - (mask + 1) := by
    rw [not32, u32_of_lt mask hm]
    norm_num at hm ⊢
    omega
  rw [h, Nat.testBit_two_pow_sub_succ hm]

theorem and_not32_eq_zero_iff (mask x : Nat) (hm : mask < 2 ^ 32) (hx : x < 2 ^ 32) :
    u32 x &&& not32 mask = 0 ↔ ¬ HasBitOutside mask x := by
  rw [u32_of_lt x hx]
  constructor
  · rintro h0 ⟨i, hxi, hmi⟩
    have hi : i < 32 := by
      by_contra hge
      have hlt : x < 2 ^ i :=
        lt_of_lt_of_le hx (Nat.pow_le_pow_right (by norm_num) (by omega))
      rw [Nat.testBit_lt_two_pow hlt] at hxi
      exact Bool.false_ne_true hxi
    have hbit : (x &&& not32 mask).testBit i = true := by
      rw [Nat.testBit_and, testBit_not32 mask i hm, hxi, hmi]
      simp [hi]
    rw [h0, Nat.zero_testBit] at hbit
    exact Bool.false_ne_true hbit
  · intro hno
    apply Nat.eq_of_testBit_eq
    intro i
    rw [Nat.zero_testBit, Nat.testBit_and, testBit_not32 mask i hm]
    cases hxi : x.testBit i
    · simp
    · cases hmi : mask.testBit i
      · exact absurd ⟨i, hxi, hmi⟩ hno
      · simp

/-- The shape shared by the checked setters of the masked fields: two asserts, then
the result of the unchecked build. -/
theorem checked_setter_none_iff (mask x field : Nat) (r : Nat) (hm : mask < 2 ^ 32)
    (hx : x < 2 ^ 32) :
    ((if ¬ (u32 x &&& not32 mask = 0) then none
      else if ¬ (field = 0) then none else some r) = (none : Option Nat)) ↔
      (HasBitOutside mask x ∨ field ≠ 0) := by
  have hiff := and_not32_eq_zero_iff mask x hm hx
  by_cases h1 : u32 x &&& not32 mask = 0
  · have hno : ¬ HasBitOutside mask x := hiff.1 h1
    by_cases h2 : field = 0
    · simp [h1, h2, hno]
    · simp [h1, h2]
  · have hyes : HasBitOutside mask x := by
      by_contra hno
      exact h1 (hiff.2 hno)
    simp [h1, hyes]

/-- C13: the checked build of the setters. With `DEBUG` defined, for an argument that
is a value of an unsigned 32-bit type, `SetPieceType` aborts if and only if `pt` has a
bit outside the 4-bit mask or the piece-type field is non-zero; `SetFromSquare` and
`SetToSquare` abort if and only if `sq` has a bit outside the 6-bit mask or their
field is non-zero; `SetPromoType` aborts if and only if `pt` has a bit outside the
4-bit mask or the promotion field is non-zero; `SetScore` aborts if and only if the
score field is non-zero; and a setter that does not abort returns the move of the
unchecked build. -/
theorem checked_setters (mv : Nat) :
    (∀ pt, pt < 2 ^ 32 →
      (SetPieceTypeDebug mv pt = none ↔
        (HasBitOutside MoveConstants.PIECE_TYPE_MASK pt ∨ GetPieceType mv ≠ 0)) ∧
      (∀ r, SetPieceTypeDebug mv pt = some r → r = SetPieceType mv pt)) ∧
    (∀ sq, sq < 2 ^ 32 →
      (SetFromSquareDebug mv sq = none ↔
        (HasBitOutside MoveConstants.FROM_MASK sq ∨ GetFromSquare mv ≠ 0)) ∧
      (∀ r, SetFromSquareDebug mv sq = some r → r = SetFromSquare mv sq)) ∧
    (∀ sq, sq < 2 ^ 32 →
      (SetToSquareDebug mv sq = none ↔
        (HasBitOutside MoveConstants.TO_MASK sq ∨ GetToSquare mv ≠ 0)) ∧
      (∀ r, SetToSquareDebug mv sq = some r → r = SetToSquare mv sq)) ∧
    (∀ pt, pt < 2 ^ 32 →
      (SetPromoTypeDebug mv pt = none ↔
        (HasBitOutside MoveConstants.PROMO_MASK pt ∨ GetPromoType mv ≠ 0)) ∧
      (∀ r, SetPromoTypeDebug mv pt = some r → r = SetPromoType mv pt)) ∧
    (∀ s, s < 2 ^ 32 →
      (SetScoreDebug mv s = none ↔ GetScore mv ≠ 0) ∧
      (∀ r, SetScoreDebug mv s = some r → r = SetScore mv s)) := by
  refine ⟨?_, ?_, ?_, ?_, ?_⟩
  · intro pt hpt
    refine ⟨checked_setter_none_iff _ pt _ _ (by decide) hpt, ?_⟩
    intro r hr
    unfold SetPieceTypeDebug at hr
    split at hr
    · exact absurd hr (by simp)
    · split at hr
      · exact absurd hr (by simp)
      · exact (Option.some.inj hr).symm
  · intro sq hsq
    refine ⟨checked_setter_none_iff _ sq _ _ (by decide) hsq, ?_⟩
    intro r hr
    unfold SetFromSquareDebug at hr
    split at hr
    · exact absurd hr (by simp)
    · split at hr
      · exact absurd hr (by simp)
      · exact (Option.some.inj hr).symm
  · intro sq hsq
    refine ⟨checked_setter_none_iff _ sq _ _ (by decide) hsq, ?_⟩
    intro r hr
    unfold SetToSquareDebug at hr
    split at hr
    · exact absurd hr (by simp)
    · split at hr
      · exact absurd hr (by simp)
      · exact (Option.some.inj hr).symm
  · intro pt hpt
    refine ⟨checked_setter_none_iff _ pt _ _ (by decide) hpt, ?_⟩
    intro r hr
    unfold SetPromoTypeDebug at hr
    split at hr
    · exact absurd hr (by simp)
    · split at hr
      · exact absurd hr (by simp)
      · exact (Option.some.inj hr).symm
  · intro s hs
    have hmask : u32 s &&& not32 MoveConstants.SCORE_MASK = 0 := by
      have hz : not32 MoveConstants.SCORE_MASK = 0 := by decide
      rw [hz, Nat.and_zero]
    constructor
    · unfold SetScoreDebug
      by_cases h2 : GetScore mv = 0
      · simp [hmask, h2]
      · simp [hmask, h2]
    · intro r hr
      unfold SetScoreDebug at hr
      split at hr
      · exact absurd hr (by simp)
      · split at hr
        · exact absurd hr (by simp)
        · exact (Option.some.inj hr).symm

/-- Witness for C13: the piece type 5 written to the move `0x70C0`, whose piece-type
field is zero. -/
theorem checked_setters_witness :
    (5 : Nat) < 2 ^ 32 ∧
    (SetPieceTypeDebug 0x70C0 5 = none ↔
      (HasBitOutside MoveConstants.PIECE_TYPE_MASK 5 ∨ GetPieceType 0x70C0 ≠ 0)) ∧
    SetPieceTypeDebug 0x70C0 5 = some (SetPieceType 0x70C0 5) :=
  ⟨by decide, ((checked_setters 0x70C0).1 5 (by decide)).1, by decide⟩

/-- What the asserts of the checked `SetCastlingType` accept: a flag with no bit
outside `CASTLE_MASK` and at least one bit inside it, on a move with no castling bit. -/
theorem SetCastlingTypeDebug_completes_iff (mv flag : Nat) (hf : flag < 2 ^ 32) :
    SetCastlingTypeDebug mv flag = some (SetCastlingType mv flag) ↔
      (¬ HasBitOutside MoveConstants.CASTLE_MASK flag ∧
        flag &&& MoveConstants.CASTLE_MASK ≠ 0 ∧ IsCastling mv = false) := by
  have hiff := and_not32_eq_zero_iff MoveConstants.CASTLE_MASK flag (by decide) hf
  unfold SetCastlingTypeDebug
  rw [u32_of_lt flag hf] at hiff ⊢
  by_cases h1 : flag &&& not32 MoveConstants.CASTLE_MASK = 0
  · have hno := hiff.1 h1
    by_cases h2 : flag &&& MoveConstants.CASTLE_MASK = 0
    · simp [h1, h2]
    · by_cases h3 : IsCastling mv = false
      · simp [h1, h2, h3, hno]
      · simp [h1, h2, h3]
  · have hyes : HasBitOutside MoveConstants.CASTLE_MASK flag := by
      by_contra hno
      exact h1 (hiff.2 hno)
    simp [h1, hyes]

/-- C14, failing input: the flag `0x30000` has two castling bits set and is none of the
four one-hot patterns, yet the checked `SetCastlingType` accepts it on the zero move
and returns a move with two castling bits. -/
theorem checked_castling_two_bits :
    ¬ IsCastlingFlag 0x30000 ∧ castleBitCount 0x30000 = 2 ∧
    SetCastlingTypeDebug 0 0x30000 = some 0x30000 ∧
    castleBitCount (SetCastlingType 0 0x30000) = 2 := by
  decide

/-! ## The move list -/

/-- C15: capacity law. Appending to a list that holds `MAX_LEGAL_MOVES = 256` entries
gives a capacity error and leaves the list unchanged; appending to a list with fewer
entries succeeds, adds the move at the end and keeps the earlier entries in order. -/
theorem capacity_law (moves : List Nat) (mv : Nat) :
    MAX_LEGAL_MOVES = 256 ∧
    (moves.length = 256 →
      MoveList.append moves mv = (AppendResult.capacityError, moves)) ∧
    (moves.length < 256 →
      (MoveList.append moves mv).1 = AppendResult.ok ∧
      (MoveList.append moves mv).2 = moves ++ [mv] ∧
      (MoveList.append moves mv).2.length = moves.length + 1 ∧
      (MoveList.append moves mv).2.take moves.length = moves ∧
      (MoveList.append moves mv).2.getLast? = some mv) := by
  refine ⟨rfl, ?_, ?_⟩
  · intro hfull
    simp [MoveList.append, MAX_LEGAL_MOVES, hfull]
  · intro hroom
    simp [MoveList.append, MAX_LEGAL_MOVES, hroom]

/-- Witness for C15: a full list of 256 zero moves, and the appending of the scenario
move to a list of two moves. -/
theorem capacity_law_witness :
    (List.replicate 256 0).length = 256 ∧
    MoveList.append (List.replicate 256 0) 0x70C1 =
      (AppendResult.capacityError, List.replicate 256 0) ∧
    (MoveList.append [1, 2] 0x70C1).2 = [1, 2, 0x70C1] :=
  ⟨List.length_replicate 256 0,
   (capacity_law (List.replicate 256 0) 0x70C1).2.1 (List.length_replicate 256 0),
   ((capacity_law [1, 2] 0x70C1).2.2 (by decide)).2.1⟩

/-! ## Order of the setter calls -/

theorem or_swap (m a b : Nat) : (m ||| a) ||| b = (m ||| b) ||| a := by
  rw [Nat.or_assoc, Nat.or_comm a b, ← Nat.or_assoc]

theorem SetterCall.apply_eq_or (c : SetterCall) (mv : Nat) : c.apply mv = mv ||| c.bits := by
  cases c <;> rfl

theorem SetterCall.apply_comm (c d : SetterCall) (mv : Nat) :
    d.apply (c.apply mv) = c.apply (d.apply mv) := by
  simp only [SetterCall.apply_eq_or]
  exact or_swap mv c.bits d.bits

theorem applyCalls_perm (mv : Nat) (cs1 cs2 : List SetterCall) (h : cs1.Perm cs2) :
    applyCalls mv cs1 = applyCalls mv cs2 := by
  haveI : RightCommutative (fun (m : Nat) (c : SetterCall) => c.apply m) :=
    ⟨fun m c d => SetterCall.apply_comm c d m⟩
  exact h.foldl_eq mv

/-- C17: setters commute. For every move and any argument values, two setters of
different fields give the same move in either order (all fifteen pairs); hence the
move built from the zero move by a sequence of setter calls does not change when the
calls are reordered. -/
theorem setters_commute (mv x y : Nat) :
    SetPieceType (SetFromSquare mv y) x = SetFromSquare (SetPieceType mv x) y ∧
    SetPieceType (SetToSquare mv y) x = SetToSquare (SetPieceType mv x) y ∧
    SetPieceType (SetPromoType mv y) x = SetPromoType (SetPieceType mv x) y ∧
    SetPieceType (SetCastlingType mv y) x = SetCastlingType (SetPieceType mv x) y ∧
    SetPieceType (SetScore mv y) x = SetScore (SetPieceType mv x) y ∧
    SetFromSquare (SetToSquare mv y) x = SetToSquare (SetFromSquare mv x) y ∧
    SetFromSquare (SetPromoType mv y) x = SetPromoType (SetFromSquare mv x) y ∧
    SetFromSquare (SetCastlingType mv y) x = SetCastlingType (SetFromSquare mv x) y ∧
    SetFromSquare (SetScore mv y) x = SetScore (SetFromSquare mv x) y ∧
    SetToSquare (SetPromoType mv y) x = SetPromoType (SetToSquare mv x) y ∧
    SetToSquare (SetCastlingType mv y) x = SetCastlingType (SetToSquare mv x) y ∧
    SetToSquare (SetScore mv y) x = SetScore (SetToSquare mv x) y ∧
    SetPromoType (SetCastlingType mv y) x = SetCastlingType (SetPromoType mv x) y ∧
    SetPromoType (SetScore mv y) x = SetScore (SetPromoType mv x) y ∧
    SetCastlingType (SetScore mv y) x = SetScore (SetCastlingType mv x) y ∧
    (∀ cs1 cs2 : List SetterCall, cs1.Perm cs2 → buildMove cs1 = buildMove cs2) := by
  refine ⟨?_, ?_, ?_, ?_, ?_, ?_, ?_, ?_, ?_, ?_, ?_, ?_, ?_, ?_, ?_, ?_⟩
  case refine_16 =>
    intro cs1 cs2 h
    exact applyCalls_perm 0 cs1 cs2 h
  all_goals
    simp only [SetPieceType, SetFromSquare, SetToSquare, SetPromoType, SetCastlingType,
      SetScore]
    exact or_swap _ _ _

/-- Witness for C17: the three calls of the scenario in two orders. -/
theorem setters_commute_witness :
    buildMove [SetterCall.pieceType 1, SetterCall.fromSquare 12, SetterCall.toSquare 28] =
      buildMove [SetterCall.toSquare 28, SetterCall.pieceType 1, SetterCall.fromSquare 12] :=
  (setters_commute 0 0 0).2.2.2.2.2.2.2.2.2.2.2.2.2.2.2
    [SetterCall.pieceType 1, SetterCall.fromSquare 12, SetterCall.toSquare 28]
    [SetterCall.toSquare 28, SetterCall.pieceType 1, SetterCall.fromSquare 12] (by decide)

/-! ## The one-hot castling invariant -/

theorem castleBitCount_apply (c : SetterCall) (mv : Nat) (hinv : castleBitCount mv ≤ 1)
    (hpre : c.Pre mv) : castleBitCount (c.apply mv) ≤ 1 := by
  rw [castleBitCount_masked, SetterCall.apply_eq_or, and_or_right]
  cases c with
  | pieceType pt =>
    obtain ⟨hfit, _⟩ := hpre
    have h : shiftField pt MoveConstants.PIECE_TYPE_SHIFT &&& MoveConstants.CASTLE_MASK = 0 := by
      rw [castleBits_arith, pieceBits_arith]
      omega
    show castleBitCount (mv &&& MoveConstants.CASTLE_MASK |||
      shiftField pt MoveConstants.PIECE_TYPE_SHIFT &&& MoveConstants.CASTLE_MASK) ≤ 1
    rw [h, Nat.or_zero, ← castleBitCount_masked]
    exact hinv
  | fromSquare sq =>
    obtain ⟨hfit, _⟩ := hpre
    have h : shiftField sq MoveConstants.FROM_SHIFT &&& MoveConstants.CASTLE_MASK = 0 := by
      rw [castleBits_arith, fromBits_arith]
      omega
    show castleBitCount (mv &&& MoveConstants.CASTLE_MASK |||
      shiftField sq MoveConstants.FROM_SHIFT &&& MoveConstants.CASTLE_MASK) ≤ 1
    rw [h, Nat.or_zero, ← castleBitCount_masked]
    exact hinv
  | toSquare sq =>
    obtain ⟨hfit, _⟩ := hpre
    have h : shiftField sq MoveConstants.TO_SHIFT &&& MoveConstants.CASTLE_MASK = 0 := by
      rw [castleBits_arith, toBits_arith]
      omega
    show castleBitCount (mv &&& MoveConstants.CASTLE_MASK |||
      shiftField sq MoveConstants.TO_SHIFT &&& MoveConstants.CASTLE_MASK) ≤ 1
    rw [h, Nat.or_zero, ← castleBitCount_masked]
    exact hinv
  | promoType pt =>
    obtain ⟨hfit, _⟩ := hpre
    have h : shiftField pt MoveConstants.PROMO_SHIFT &&& MoveConstants.CASTLE_MASK = 0 := by
      rw [castleBits_arith, promoBits_arith]
      omega
    show castleBitCount (mv &&& MoveConstants.CASTLE_MASK |||
      shiftField pt MoveConstants.PROMO_SHIFT &&& MoveConstants.CASTLE_MASK) ≤ 1
    rw [h, Nat.or_zero, ← castleBitCount_masked]
    exact hinv
  | score s =>
    obtain ⟨hfit, _⟩ := hpre
    have h : u64 (u32 s <<< MoveConstants.SCORE_SHIFT) &&& MoveConstants.CASTLE_MASK = 0 := by
      rw [castleBits_arith, scoreBits_arith]
      omega
    show castleBitCount (mv &&& MoveConstants.CASTLE_MASK |||
      u64 (u32 s <<< MoveConstants.SCORE_SHIFT) &&& MoveConstants.CASTLE_MASK) ≤ 1
    rw [h, Nat.or_zero, ← castleBitCount_masked]
    exact hinv
  | castlingType flag =>
    obtain ⟨hflag, hno⟩ := hpre
    have hz : mv &&& MoveConstants.CASTLE_MASK = 0 := by
      simpa [IsCastling] using hno
    show castleBitCount (mv &&& MoveConstants.CASTLE_MASK |||
      u32 flag &&& MoveConstants.CASTLE_MASK) ≤ 1
    rw [hz, Nat.zero_or]
    rcases hflag with rfl | rfl | rfl | rfl <;> decide

theorem castleBitCount_applyCalls (cs : List SetterCall) :
    ∀ mv, castleBitCount mv ≤ 1 → ValidCalls mv cs →
      castleBitCount (applyCalls mv cs) ≤ 1 := by
  induction cs with
  | nil =>
    intro mv hinv _
    exact hinv
  | cons c cs ih =>
    intro mv hinv hvalid
    obtain ⟨hpre, hrest⟩ := hvalid
    exact ih (c.apply mv) (castleBitCount_apply c mv hinv hpre) hrest

/-- C18: one-hot castling invariant. The zero move has at most one castling bit set;
a setter call that satisfies the preconditions of the spec keeps that property; hence
every move reached from the zero move by such calls has at most one of the four
castling bits set. -/
theorem one_hot_invariant :
    castleBitCount 0 ≤ 1 ∧
    (∀ (mv : Nat) (c : SetterCall), castleBitCount mv ≤ 1 → c.Pre mv →
      castleBitCount (c.apply mv) ≤ 1) ∧
    (∀ cs : List SetterCall, ValidCalls 0 cs → castleBitCount (buildMove cs) ≤ 1) := by
  refine ⟨by decide, ?_, ?_⟩
  · intro mv c hinv hpre
    exact castleBitCount_apply c mv hinv hpre
  · intro cs hvalid
    exact castleBitCount_applyCalls cs 0 (by decide) hvalid

/-- Witness for C18: the scenario move given a castling flag and a score. -/
theorem one_hot_invariant_witness :
    ValidCalls 0 [SetterCall.pieceType 1, SetterCall.fromSquare 12, SetterCall.toSquare 28,
      SetterCall.castlingType MoveConstants.CASTLE_WHITE_SHORT, SetterCall.score 5] ∧
    castleBitCount (buildMove [SetterCall.pieceType 1, SetterCall.fromSquare 12,
      SetterCall.toSquare 28, SetterCall.castlingType MoveConstants.CASTLE_WHITE_SHORT,
      SetterCall.score 5]) ≤ 1 :=
  ⟨by decide, one_hot_invariant.2.2 _ (by decide)⟩

/-! ## Position of the score -/

theorem bitField_eq_getField (mv lo width : Nat) :
    bitField mv lo width = (mv >>> lo) &&& (2 ^ width - 1) := by
  rw [bitField, Nat.and_pow_two_sub_one_eq_mod, Nat.shiftRight_eq_div_pow]

theorem bitField_or (a b lo width : Nat) :
    bitField (a ||| b) lo width = bitField a lo width ||| bitField b lo width := by
  simp only [bitField_eq_getField]
  exact getField_or lo _ a b

/-- C19, counterexample: the move `0x1000000` holds 1 in bits 24 to 31 and `GetScore`
reads 0; `SetScore` of the score 1 on the zero move leaves bits 24 to 31 zero. -/
theorem score_layout_comment_counterexample :
    IsMove 0x1000000 ∧ ¬ (GetScore 0x1000000 = bitField 0x1000000 24 8) ∧
    ¬ (bitField (SetScore 0 1) 24 8 = 1) := by
  decide

/-- C19, amended: for every move, the score read by `GetScore` is the value of bits 32
to 63, and `SetScore` writes the score into bits 32 to 63: it ORs `s <<< 32` into the
move, leaves bits 24 to 31 unchanged, and on a zero score field bits 32 to 63 then hold
`s`. -/
theorem score_in_high_word (mv : Nat) :
    GetScore mv = bitField mv 32 32 ∧
    (∀ s, s < 2 ^ 32 →
      SetScore mv s = mv ||| s <<< 32 ∧
      bitField (SetScore mv s) 24 8 = bitField mv 24 8 ∧
      (GetScore mv = 0 → bitField (SetScore mv s) 32 32 = s)) := by
  have hget : ∀ m : Nat, GetScore m = bitField m 32 32 := by
    intro m
    rw [GetScore_arith, bitField]
    norm_num
  refine ⟨hget mv, ?_⟩
  intro s hs
  have hbits : u64 (u32 s <<< MoveConstants.SCORE_SHIFT) = s <<< 32 := by
    rw [scoreBits_arith, Nat.shiftLeft_eq]
    norm_num at hs ⊢
    omega
  refine ⟨by rw [SetScore, hbits], ?_, ?_⟩
  · rw [SetScore, bitField_or, scoreBits_arith]
    have hz : bitField (s % 4294967296 * 4294967296) 24 8 = 0 := by
      rw [bitField]
      norm_num
      omega
    rw [hz, Nat.or_zero]
  · intro h0
    rw [← hget, GetScore_SetScore mv s h0]
    norm_num at hs
    omega

/-- Witness for C19 (amended): the scenario move `0x70C1` and the score `0x7FCE`. -/
theorem score_in_high_word_witness :
    GetScore 0x70C1 = 0 ∧ SetScore 0x70C1 0x7FCE = 0x70C1 ||| 0x7FCE <<< 32 ∧
    bitField (SetScore 0x70C1 0x7FCE) 24 8 = bitField 0x70C1 24 8 ∧
    bitField (SetScore 0x70C1 0x7FCE) 32 32 = 0x7FCE :=
  ⟨by decide, ((score_in_high_word 0x70C1).2 0x7FCE (by decide)).1,
   ((score_in_high_word 0x70C1).2 0x7FCE (by decide)).2.1,
   ((score_in_high_word 0x70C1).2 0x7FCE (by decide)).2.2 (by decide)⟩

/-! ## Decoding of well-formed moves -/

theorem SetterCall.bits_fit (c : SetterCall) (h : c.ArgFits) :
    c.bits < 18446744073709551616 ∧ bitField c.bits 24 8 = 0 := by
  cases c with
  | pieceType pt =>
    have hfit : pt ≤ 15 := h
    show shiftField pt MoveConstants.PIECE_TYPE_SHIFT < _ ∧
      bitField (shiftField pt MoveConstants.PIECE_TYPE_SHIFT) 24 8 = 0
    rw [pieceBits_arith, bitField]
    norm_num
    omega
  | fromSquare sq =>
    have hfit : sq ≤ 63 := h
    show shiftField sq MoveConstants.FROM_SHIFT < _ ∧
      bitField (shiftField sq MoveConstants.FROM_SHIFT) 24 8 = 0
    rw [fromBits_arith, bitField]
    norm_num
    omega
  | toSquare sq =>
    have hfit : sq ≤ 63 := h
    show shiftField sq MoveConstants.TO_SHIFT < _ ∧
      bitField (shiftField sq MoveConstants.TO_SHIFT) 24 8 = 0
    rw [toBits_arith, bitField]
    norm_num
    omega
  | promoType pt =>
    have hfit : pt ≤ 15 := h
    show shiftField pt MoveConstants.PROMO_SHIFT < _ ∧
      bitField (shiftField pt MoveConstants.PROMO_SHIFT) 24 8 = 0
    rw [promoBits_arith, bitField]
    norm_num
    omega
  | castlingType flag =>
    have hfit : flag &&& MoveConstants.CASTLE_MASK = flag := h
    rw [castleBits_arith] at hfit
    show u32 flag < _ ∧ bitField (u32 flag) 24 8 = 0
    rw [u32, bitField]
    norm_num
    omega
  | score s =>
    show u64 (u32 s <<< MoveConstants.SCORE_SHIFT) < _ ∧
      bitField (u64 (u32 s <<< MoveConstants.SCORE_SHIFT)) 24 8 = 0
    rw [scoreBits_arith, bitField]
    norm_num
    omega

theorem applyCalls_wellFormed (cs : List SetterCall) :
    ∀ mv, (∀ c ∈ cs, SetterCall.ArgFits c) → mv < 18446744073709551616 →
      bitField mv 24 8 = 0 →
      applyCalls mv cs < 18446744073709551616 ∧ bitField (applyCalls mv cs) 24 8 = 0 := by
  induction cs with
  | nil =>
    intro mv _ h64 h24
    exact ⟨h64, h24⟩
  | cons c cs ih =>
    intro mv hfit h64 h24
    obtain ⟨hb64, hb24⟩ := c.bits_fit (hfit c (List.mem_cons_self c cs))
    have hstep64 : c.apply mv < 18446744073709551616 := by
      rw [SetterCall.apply_eq_or]
      exact Nat.or_lt_two_pow (n := 64) h64 hb64
    have hstep24 : bitField (c.apply mv) 24 8 = 0 := by
      rw [SetterCall.apply_eq_or, bitField_or, h24, hb24, Nat.or_zero]
    exact ih (c.apply mv) (fun d hd => hfit d (List.mem_cons_of_mem c hd)) hstep64 hstep24

theorem Built.wellFormed (mv : Nat) (h : Built mv) :
    mv < 18446744073709551616 ∧ bitField mv 24 8 = 0 := by
  obtain ⟨cs, hfit, rfl⟩ := h
  exact applyCalls_wellFormed cs 0 hfit (by norm_num) (by decide)

theorem recompose_or (P F T C PR S : Nat) (hP : P < 16) (hF : F < 64) (hT : T < 64)
    (hC : C % 65536 = 0 ∧ C < 1048576) (hPR : PR < 16) :
    P ||| F <<< 4 ||| T <<< 10 ||| C ||| PR <<< 20 ||| S <<< 32 =
      P + F * 16 + T * 1024 + C + PR * 1048576 + S * 4294967296 := by
  have e1 : 2 ^ 4 * F + P = 2 ^ 4 * F ||| P := Nat.mul_add_lt_is_or (by norm_num; omega) F
  have e2 : 2 ^ 10 * T + (F <<< 4 ||| P) = 2 ^ 10 * T ||| (F <<< 4 ||| P) :=
    Nat.mul_add_lt_is_or (by rw [Nat.shiftLeft_eq, Nat.mul_comm, e1.symm]; norm_num; omega) T
  have e3 : 2 ^ 16 * (C / 65536) + (T <<< 10 ||| (F <<< 4 ||| P)) =
      2 ^ 16 * (C / 65536) ||| (T <<< 10 ||| (F <<< 4 ||| P)) :=
    Nat.mul_add_lt_is_or (by
      rw [Nat.shiftLeft_eq T, Nat.mul_comm T, e2.symm, Nat.shiftLeft_eq, Nat.mul_comm F,
        e1.symm]
      norm_num
      omega) _
  have hCeq : 2 ^ 16 * (C / 65536) = C := by norm_num; omega
  rw [hCeq] at e3
  have e4 : 2 ^ 20 * PR + (C ||| (T <<< 10 ||| (F <<< 4 ||| P))) =
      2 ^ 20 * PR ||| (C ||| (T <<< 10 ||| (F <<< 4 ||| P))) :=
    Nat.mul_add_lt_is_or (by
      rw [e3.symm, Nat.shiftLeft_eq T, Nat.mul_comm T, e2.symm, Nat.shiftLeft_eq,
        Nat.mul_comm F, e1.symm]
      norm_num
      omega) PR
  have e5 : 2 ^ 32 * S + (PR <<< 20 ||| (C ||| (T <<< 10 ||| (F <<< 4 ||| P)))) =
      2 ^ 32 * S ||| (PR <<< 20 ||| (C ||| (T <<< 10 ||| (F <<< 4 ||| P)))) :=
    Nat.mul_add_lt_is_or (by
      rw [Nat.shiftLeft_eq PR, Nat.mul_comm PR, e4.symm, e3.symm, Nat.shiftLeft_eq T,
        Nat.mul_comm T, e2.symm, Nat.shiftLeft_eq, Nat.mul_comm F, e1.symm]
      norm_num
      omega) S
  have hL : P ||| F <<< 4 ||| T <<< 10 ||| C ||| PR <<< 20 ||| S <<< 32 =
      S <<< 32 ||| (PR <<< 20 ||| (C ||| (T <<< 10 ||| (F <<< 4 ||| P)))) := by
    rw [Nat.or_comm P, Nat.or_comm _ (T <<< 10), Nat.or_comm _ C, Nat.or_comm _ (PR <<< 20),
      Nat.or_comm _ (S <<< 32)]
  rw [hL, Nat.shiftLeft_eq S, Nat.mul_comm S, e5.symm, Nat.shiftLeft_eq PR, Nat.mul_comm PR,
    e4.symm, e3.symm, Nat.shiftLeft_eq T, Nat.mul_comm T, e2.symm, Nat.shiftLeft_eq,
    Nat.mul_comm F, e1.symm]
  norm_num
  omega

theorem decode_or (mv : Nat) (h64 : mv < 18446744073709551616) (h24 : bitField mv 24 8 = 0) :
    mv = GetPieceType mv ||| GetFromSquare mv <<< 4 ||| GetToSquare mv <<< 10 |||
      (mv &&& MoveConstants.CASTLE_MASK) ||| GetPromoType mv <<< 20 ||| GetScore mv <<< 32 := by
  rw [bitField] at h24
  norm_num at h24
  rw [castleBits_arith, GetPieceType_arith, GetFromSquare_arith, GetToSquare_arith,
    GetPromoType_arith, GetScore_arith]
  rw [recompose_or _ _ _ _ _ _ (Nat.mod_lt _ (by norm_num)) (Nat.mod_lt _ (by norm_num))
    (Nat.mod_lt _ (by norm_num)) (by omega) (Nat.mod_lt _ (by norm_num))]
  omega

theorem ClearScore_arith (mv : Nat) : ClearScore mv = mv % 4294967296 := by
  rw [ClearScore, and_mask32, u32]
  norm_num

/-- C20: decoding is injective on well-formed moves. A move built from the zero move by
setter calls whose arguments fit their fields has bits 24 to 31 equal to zero and is
the OR of its decoded fields, each shifted to its position; two such moves that agree
on the six decoded fields are equal; and two such moves have the same `ClearScore` if
and only if they agree on piece type, from square, to square, castling bits and
promotion type. -/
theorem decoding_injective :
    (∀ mv, Built mv →
      bitField mv 24 8 = 0 ∧
      mv = GetPieceType mv ||| GetFromSquare mv <<< 4 ||| GetToSquare mv <<< 10 |||
        (mv &&& MoveConstants.CASTLE_MASK) ||| GetPromoType mv <<< 20 |||
        GetScore mv <<< 32) ∧
    (∀ m1 m2, Built m1 → Built m2 →
      GetPieceType m1 = GetPieceType m2 → GetFromSquare m1 = GetFromSquare m2 →
      GetToSquare m1 = GetToSquare m2 →
      m1 &&& MoveConstants.CASTLE_MASK = m2 &&& MoveConstants.CASTLE_MASK →
      GetPromoType m1 = GetPromoType m2 → GetScore m1 = GetScore m2 → m1 = m2) ∧
    (∀ m1 m2, Built m1 → Built m2 →
      (ClearScore m1 = ClearScore m2 ↔
        (GetPieceType m1 = GetPieceType m2 ∧ GetFromSquare m1 = GetFromSquare m2 ∧
          GetToSquare m1 = GetToSquare m2 ∧
          m1 &&& MoveConstants.CASTLE_MASK = m2 &&& MoveConstants.CASTLE_MASK ∧
          GetPromoType m1 = GetPromoType m2))) := by
  refine ⟨?_, ?_, ?_⟩
  · intro mv hb
    obtain ⟨h64, h24⟩ := hb.wellFormed
    exact ⟨h24, decode_or mv h64 h24⟩
  · intro m1 m2 hb1 hb2 hp hf ht hc hpr hs
    obtain ⟨h64a, h24a⟩ := hb1.wellFormed
    obtain ⟨h64b, h24b⟩ := hb2.wellFormed
    rw [decode_or m1 h64a h24a, decode_or m2 h64b h24b, hp, hf, ht, hc, hpr, hs]
  · intro m1 m2 hb1 hb2
    obtain ⟨h64a, h24a⟩ := hb1.wellFormed
    obtain ⟨h64b, h24b⟩ := hb2.wellFormed
    rw [bitField] at h24a h24b
    norm_num at h24a h24b
    rw [ClearScore_arith, ClearScore_arith, castleBits_arith, castleBits_arith,
      GetPieceType_arith, GetPieceType_arith, GetFromSquare_arith, GetFromSquare_arith,
      GetToSquare_arith, GetToSquare_arith, GetPromoType_arith, GetPromoType_arith]
    constructor
    · intro h
      refine ⟨?_, ?_, ?_, ?_, ?_⟩ <;> omega
    · rintro ⟨hp, hf, ht, hc, hpr⟩
      omega

/-- Witness for C20: the scenario move with a castling flag, a promotion type and a
score, against the same fields with another score. -/
theorem decoding_injective_witness :
    Built 0x7FCE005470C1 ∧ Built 0x7F9C005470C1 ∧
    bitField 0x7FCE005470C1 24 8 = 0 ∧
    (ClearScore 0x7FCE005470C1 = ClearScore 0x7F9C005470C1 ↔
      (GetPieceType 0x7FCE005470C1 = GetPieceType 0x7F9C005470C1 ∧
        GetFromSquare 0x7FCE005470C1 = GetFromSquare 0x7F9C005470C1 ∧
        GetToSquare 0x7FCE005470C1 = GetToSquare 0x7F9C005470C1 ∧
        0x7FCE005470C1 &&& MoveConstants.CASTLE_MASK =
          0x7F9C005470C1 &&& MoveConstants.CASTLE_MASK ∧
        GetPromoType 0x7FCE005470C1 = GetPromoType 0x7F9C005470C1)) :=
  have h1 : Built 0x7FCE005470C1 :=
    ⟨[SetterCall.pieceType 1, SetterCall.fromSquare 12, SetterCall.toSquare 28,
      SetterCall.castlingType MoveConstants.CASTLE_WHITE_SHORT, SetterCall.promoType 5,
      SetterCall.score 0x7FCE], by decide, by decide⟩
  have h2 : Built 0x7F9C005470C1 :=
    ⟨[SetterCall.score 0x7F9C, SetterCall.promoType 5,
      SetterCall.castlingType MoveConstants.CASTLE_WHITE_SHORT, SetterCall.toSquare 28,
      SetterCall.fromSquare 12, SetterCall.pieceType 1], by decide, by decide⟩
  ⟨h1, h2, (decoding_injective.1 _ h1).1, decoding_injective.2.2 _ _ h1 h2⟩

end Giraffe
